import Mathlib

/-!
Shallow embedding of the result-comparison engine of `runperf/result.py`:
status constants, the uncertainty table, per-test difference calculation,
the weighted multi-model scoring (`record_result` with its nested
`WeightedResult`), result recording (`record_broken`,
`add_result_by_path`), grouped-result expansion, `finish`, the xunit
element classification, and the selection layer of `closest_result`.

Python floats are modelled as rationals (`ℚ`); all arithmetic in the
embedded code paths is exact on the inputs the claims exercise.
Human-readable rationale strings built purely for logging are elided
where noted; every value that feeds a computation is kept.
-/

namespace Runperf

/-- Test status constants (result.py lines 36-42). -/
def PASS : Int := 0

def SKIP : Int := 99

def MINOR_GAIN : Int := 1

def MINOR_LOSS : Int := 2

def FAIL : Int := -1

def FAIL_LOSS : Int := -1

def FAIL_GAIN : Int := -3

def ERROR : Int := -2

/-- Source `get_uncertainty(no_samples)` (result.py lines 58-65): uncertainty
coefficient table; `none` models the `ValueError` raised for
`no_samples <= 0`. -/
def get_uncertainty (no_samples : ℤ) : Option ℚ :=
  let coefficients : List ℚ :=
    [7, 23/10, 17/10, 14/10, 13/10, 13/10, 12/10, 12/10]
  if no_samples ≤ 0 then none
  else if no_samples ≤ 8 then some (coefficients.getD (no_samples - 1).toNat 0)
  else some 1

/-- Source `get_uncertainty` at a call site that guarantees a positive count
(group sizes, sample counts); the default is never used there. -/
def uncertaintyD (n : ℕ) : ℚ := (get_uncertainty (n : ℤ)).getD 0

/-- Python `str.endswith`, on the character lists of the strings. -/
def strEndsWith (s pat : String) : Bool := pat.data.isSuffixOf s.data

/-- A single evaluated comparison (class `Result`, result.py lines
257-299).  The constructor argument `test` is split on the last `/`
into `classname`/`testname` by `mkResult` below; `params` and the
details text carry no computation. -/
structure Result where
  status : Int
  score : ℚ
  classname : String
  testname : String
  src : ℚ
  dst : ℚ
  details : Option String
  primary : Bool
  deriving Repr, DecidableEq

/-- Source `test.rsplit('/', 1)` of `Result.__init__`: everything before the
last `/` and the part after it; when no `/` occurs the class name is
`<undefined>`. -/
def rsplitSlash (test : String) : String × String :=
  match test.data.reverse.dropWhile (fun c => c ≠ '/') with
  | [] => ("<undefined>", test)
  | _ :: rest =>
      (String.mk rest.reverse,
       String.mk ((test.data.reverse.takeWhile (fun c => c ≠ '/')).reverse))

/-- Source `Result.__init__` (result.py lines 265-284). -/
def mkResult (status : Int) (score : ℚ) (test : String) (src dst : ℚ)
    (details : Option String) (primary : Bool) : Result :=
  let name := rsplitSlash test
  { status := status, score := score, classname := name.1,
    testname := name.2, src := src, dst := dst, details := details,
    primary := primary }

/-- Source `Result.name` (result.py lines 290-293). -/
def Result.name (r : Result) : String := r.classname ++ "/" ++ r.testname

/-- Source `Result.is_stddev` (result.py lines 286-288). -/
def Result.is_stddev (r : Result) : Bool := strEndsWith r.testname "stddev"

/-- Source `RelativeResults._calculate_test_difference` (result.py lines
571-585): per-test raw difference and tolerance, keyed on the test-name
suffix. -/
def calculate_test_difference (mean_tolerance stddev_tolerance : ℚ)
    (test_name : String) (src dst : ℚ) : ℚ × ℚ :=
  if strEndsWith test_name "mean" then
    if src = 0 then (0, mean_tolerance)
    else ((dst - src) / |src| * 100, mean_tolerance)
  else if strEndsWith test_name "stddev" then
    (src - dst, stddev_tolerance)
  else
    (if src = dst then 0 else 1, 0)

/-- One `(check_name, difference, weight[, source value])` entry of a
model's `check_result` output (result.py lines 76-88). -/
structure Opinion where
  name : String
  difference : ℚ
  weight : ℚ
  src : Option ℚ := none
  deriving Repr, DecidableEq

/-- A model's `check_result` is abstracted as its output on the given
test name and src/dst pair; `RelativeResults.record_result` only ever
consumes that output. -/
abbrev ModelFn := String → ℚ → ℚ → List Opinion

/-- The averages model's `check_result(name, score)` output: 3-tuples
`(label, difference, weight)`, never carrying a source value
(result.py lines 447-464). -/
abbrev AveragesFn := String → ℚ → List (String × ℚ × ℚ)

/-- The nested accumulator class `WeightedResult` of `record_result`
(result.py lines 593-624).  The `good`/`small`/`big` buckets keep the
label and difference of each opinion; the `"%.2F%%"` text rendering is
elided. -/
structure WeightedResult where
  srcs : List ℚ
  dst : ℚ
  tolerance : ℚ
  good : List (String × ℚ)
  small : List (String × ℚ)
  big : List (String × ℚ)
  agg_diffs : ℚ
  agg_weights : ℚ
  deriving Repr, DecidableEq

/-- Source `WeightedResult.__init__(dst, tolerance)` (result.py lines 597-605). -/
def WeightedResult.init (dst tolerance : ℚ) : WeightedResult :=
  { srcs := [], dst := dst, tolerance := tolerance, good := [],
    small := [], big := [], agg_diffs := 0, agg_weights := 0 }

/-- Source `WeightedResult.add(model_idx, name, difference, weight, src)`
(result.py lines 607-620); `label` stands for the concatenation of
`name` and `model_idx`. -/
def WeightedResult.add (m : WeightedResult) (label : String)
    (difference weight : ℚ) (src : Option ℚ) : WeightedResult :=
  let m := { m with agg_diffs := m.agg_diffs + difference * weight,
                    agg_weights := m.agg_weights + weight }
  let m := match src with
    | some s => { m with srcs := m.srcs ++ [s] }
    | none => m
  if |difference| > m.tolerance then
    if difference > 0 then { m with big := m.big ++ [(label, difference)] }
    else { m with small := m.small ++ [(label, difference)] }
  else { m with good := m.good ++ [(label, difference)] }

/-- Source `WeightedResult.score` (result.py lines 622-624). -/
def WeightedResult.score (m : WeightedResult) : ℚ :=
  m.agg_diffs / m.agg_weights

/-- The status classification of `WeightedResult.report` (result.py
lines 628-644), exactly as written: note the second branch compares
`diff < minor_tolerance`, not `diff < -minor_tolerance`. -/
def WeightedResult.classify (m : WeightedResult) : Int :=
  let diff := m.score
  if |diff| ≤ m.tolerance then
    let minor_tolerance := m.tolerance / 2
    if diff > minor_tolerance then MINOR_GAIN
    else if diff < minor_tolerance then MINOR_LOSS
    else PASS
  else
    if diff > 0 then FAIL_GAIN
    else FAIL_LOSS

/-- Source `WeightedResult.report` (result.py lines 626-656): builds the final
`Result`; the rationale text assembled in `out` is pure logging and is
elided (`details := none`).  `srcs[-1]` is total here because the raw
opinion always appended `src` before `report` runs. -/
def WeightedResult.report (m : WeightedResult) (test_name : String)
    (primary : Bool) : Result :=
  mkResult m.classify m.score test_name (m.srcs.getLastD 0) m.dst none primary

/-- The `difference, tolerance` resolution of `record_result`
(result.py lines 658-660): computed from the test name unless an
explicit difference was supplied. -/
def record_result_diff_tol (mean_tolerance stddev_tolerance : ℚ)
    (test_name : String) (src dst : ℚ)
    (difference? tolerance? : Option ℚ) : ℚ × ℚ :=
  match difference? with
  | none => calculate_test_difference mean_tolerance stddev_tolerance
      test_name src dst
  | some d => (d, tolerance?.getD 0)

/-- The accumulator right after the per-model opinion loop of
`record_result` (result.py lines 662-667). -/
def record_result_model_state (models : List ModelFn)
    (dst tolerance : ℚ) (test_name : String) (src : ℚ) : WeightedResult :=
  models.enum.foldl (fun m p =>
    (p.2 test_name src dst).foldl (fun m r =>
      m.add (r.name ++ toString p.1) r.difference r.weight r.src) m)
    (WeightedResult.init dst tolerance)

/-- The raw-opinion weight decision of `record_result` (result.py lines
663-669): `raw_weight` starts at `0` and becomes `1` exactly when the
model loop accumulated zero total weight. -/
def record_result_raw_weight (models : List ModelFn)
    (dst tolerance : ℚ) (test_name : String) (src : ℚ) : ℚ :=
  if (record_result_model_state models dst tolerance test_name
      src).agg_weights = 0 then 1 else 0

/-- The accumulator state of `record_result` (result.py lines 658-673)
just before `msg.report()`: model opinions, the raw opinion with
`raw_weight`, then the averages opinions evaluated at `msg.score()`. -/
def record_result_state (models : List ModelFn) (averages : AveragesFn)
    (mean_tolerance stddev_tolerance : ℚ) (test_name : String)
    (src dst : ℚ) (difference? tolerance? : Option ℚ) : WeightedResult :=
  let dt := record_result_diff_tol mean_tolerance stddev_tolerance
    test_name src dst difference? tolerance?
  let msg := record_result_model_state models dst dt.2 test_name src
  let msg := msg.add "raw" dt.1
    (record_result_raw_weight models dst dt.2 test_name src) (some src)
  (averages test_name msg.score).foldl (fun m r =>
    m.add r.1 r.2.1 r.2.2 none) msg

/-- The total weight contributed by the configured models' opinions on
one check. -/
def model_weight_total (models : List ModelFn) (test_name : String)
    (src dst : ℚ) : ℚ :=
  (models.map (fun f => ((f test_name src dst).map Opinion.weight).sum)).sum

/-- Source `RelativeResults.record_result` (result.py lines 587-674), returning
the recorded `Result` (the `grouped` flag only routes storage and is
handled by callers). -/
def record_result (models : List ModelFn) (averages : AveragesFn)
    (mean_tolerance stddev_tolerance : ℚ) (test_name : String)
    (src dst : ℚ) (primary : Bool)
    (difference? tolerance? : Option ℚ) : Result :=
  (record_result_state models averages mean_tolerance stddev_tolerance
    test_name src dst difference? tolerance?).report test_name primary

/-- Source `RelativeResults.record_broken` (result.py lines 566-569). -/
def record_broken (test_name : String) (details : Option String)
    (primary : Bool) : Result :=
  mkResult ERROR (-100) test_name 0 (-100) details primary

/-- Source `RelativeResults.finish` (result.py lines 887-922), over the
accumulated `records` and `grouped_records`. -/
def finish (records grouped_records : List Result) : ℕ :=
  let failures := (records.filter
    (fun r => decide (r.status < 0) && r.primary)).length
  let grouped_failures := (grouped_records.filter
    (fun r => decide (r.status < 0))).length
  if failures ≠ 0 ∨ grouped_failures ≠ 0 then 2
  else if records = [] then 3
  else 0

/-- The per-record element classification of `RelativeResults.get_xunit`
(result.py lines 705-716): for a failing status (`status < PASS`) the
xml element type recorded for the testcase, `none` for passing
statuses. -/
def xunit_element_type (status : Int) : Option String :=
  if status < PASS then
    some (if status = FAIL_GAIN then "skipped"
          else if status = FAIL ∨ status = FAIL_LOSS then "failure"
          else "error")
  else none

/-- One measurement tuple `(test, score, primary)` as produced by
`iter_results`; the `params` bag carries no computation and is elided. -/
structure Measurement where
  test : String
  score : ℚ
  primary : Bool
  deriving Repr, DecidableEq

/-- The destination loop of `ResultsContainer.add_result_by_path`
(result.py lines 522-529): each destination measurement found among the
remaining source tests is recorded as a comparison and removed from the
remaining list; any other one is recorded broken.  Returns the recorded
results and the source tests still unmatched. -/
def add_result_dst_loop (models : List ModelFn) (averages : AveragesFn)
    (mean_tolerance stddev_tolerance : ℚ)
    (src_results : List (String × ℚ × Bool)) :
    List String → List Measurement → List Result × List String
  | src_tests, [] => ([], src_tests)
  | src_tests, m :: rest =>
    if m.test ∈ src_tests then
      let src_score := ((src_results.lookup m.test).getD (0, false)).1
      let r := record_result models averages mean_tolerance
        stddev_tolerance m.test src_score m.score m.primary none none
      let out := add_result_dst_loop models averages mean_tolerance
        stddev_tolerance src_results (src_tests.erase m.test) rest
      (r :: out.1, out.2)
    else
      let r := record_broken m.test
        (some ("Not present in source results (" ++ toString m.score ++ ")."))
        m.primary
      let out := add_result_dst_loop models averages mean_tolerance
        stddev_tolerance src_results src_tests rest
      (r :: out.1, out.2)

/-- Source `ResultsContainer.add_result_by_path` (result.py lines 512-534),
with the directory scanning replaced by its yielded measurement list:
the destination loop followed by a broken record for every source test
never matched (`self.src_results[missing_test][1]` is its primary
flag). -/
def add_result_by_path (models : List ModelFn) (averages : AveragesFn)
    (mean_tolerance stddev_tolerance : ℚ)
    (src_results : List (String × ℚ × Bool))
    (dst_results : List Measurement) : List Result :=
  let out := add_result_dst_loop models averages mean_tolerance
    stddev_tolerance src_results (src_results.map (fun p => p.1)) dst_results
  out.1 ++ out.2.map (fun missing_test =>
    record_broken missing_test
      (some "Not present in target results (-100)")
      ((src_results.lookup missing_test).getD (0, false)).2)

/-- Source `numpy.average` on a nonempty list. -/
def npAverage (values : List ℚ) : ℚ := values.sum / values.length

/-- The `values` accumulation of `RelativeResults._expand_grouped_result`
(result.py lines 844-847): a `defaultdict(list)` keyed by
`record.get_merged_name(merge)` (abstracted as `key`), appending each
record's score, keys kept in first-appearance order. -/
def groupScores (key : Result → String) (records : List Result) :
    List (String × List ℚ) :=
  records.foldl (fun acc r =>
    let k := key r
    if acc.any (fun p => p.1 == k) then
      acc.map (fun p => if p.1 == k then (p.1, p.2 ++ [r.score]) else p)
    else acc ++ [(k, [r.score])]) []

/-- The per-group `record_result` call arguments of
`RelativeResults._expand_grouped_result` (result.py lines 848-853):
`(test_name, value, tolerance)` with `value = numpy.average(values)`
and `tolerance = mean_tolerance * get_uncertainty(len(values)) / 2`;
the call is `record_result(test_name, value, value, True, True, value,
tolerance)`. -/
def expand_grouped_calls (mean_tolerance : ℚ) (key : Result → String)
    (records : List Result) : List (String × ℚ × ℚ) :=
  (groupScores key records).map (fun p =>
    (p.1, npAverage p.2, mean_tolerance * uncertaintyD p.2.length / 2))

/-- Source `RelativeResults._expand_grouped_result` (result.py lines 838-853):
the synthetic grouped results actually recorded. -/
def expand_grouped_result (models : List ModelFn) (averages : AveragesFn)
    (mean_tolerance stddev_tolerance : ℚ) (key : Result → String)
    (records : List Result) : List Result :=
  (expand_grouped_calls mean_tolerance key records).map (fun c =>
    record_result models averages mean_tolerance stddev_tolerance
      c.1 c.2.1 c.2.1 true (some c.2.1) (some c.2.2))

/-- The record filter of `RelativeResults.expand_grouped_results`
(result.py lines 859-861): primary, non-ERROR, non-stddev records enter
the grouping passes. -/
def groupableRecords (records : List Result) : List Result :=
  records.filter (fun r =>
    r.primary && decide (r.status ≠ ERROR) && !(r.is_stddev))

/-- Source `process_score(storage, selection)` of `closest_result` (result.py
lines 949-962): the maximum over the selected entries, the count of
that maximum in the whole storage, the early unique-index return
(`Sum.inl`) and the surviving-selection return (`Sum.inr`). -/
def process_score (storage : List ℚ) (selection : List ℕ) : ℕ ⊕ List ℕ :=
  let score := ((selection.map (fun i => storage.getD i 0)).maximum).getD 0
  let count := storage.count score
  if count = 1 then
    match selection.find? (fun i => storage.getD i 0 == score) with
    | some i => Sum.inl i
    | none => Sum.inr []
  else
    Sum.inr ((List.range storage.length).filter
      (fun i => decide (i ∈ selection) && storage.getD i 0 == score))

/-- The selection loop at the end of `closest_result` (result.py lines
1082-1088), over the two accumulated stat rows (`stats[0]` = primary
totals, `stats[1]` = secondary totals) with the initial selection
`range(no_results)`. -/
def closest_result_select (primary secondary : List ℚ)
    (no_results : ℕ) : ℕ :=
  match process_score primary (List.range no_results) with
  | Sum.inl i => i
  | Sum.inr sel =>
    match process_score secondary sel with
    | Sum.inl i => i
    | Sum.inr sel2 => sel2.headD 0

/-- Modelled from the spec (§4.5 selection): the candidates attaining
the maximum of `storage` over `selection`, in index order — the
progressive-selection step the code's `process_score` is claimed to
implement. -/
def argmaxFilter (storage : List ℚ) (selection : List ℕ) : List ℕ :=
  selection.filter (fun i =>
    storage.getD i 0 == ((selection.map (fun i => storage.getD i 0)).maximum).getD 0)

/-- Modelled from the spec (§4.5 selection): maximize the primary
totals, break ties by the secondary totals among the tied candidates,
then take the first surviving index. -/
def closest_result_spec (primary secondary : List ℚ)
    (no_results : ℕ) : ℕ :=
  (argmaxFilter secondary (argmaxFilter primary (List.range no_results))).headD 0

/-- Python `s.rsplit(c, 1)[0]`: everything before the last occurrence
of `c`, or the whole string when `c` does not occur (used for metric
stems in `closest_result`). -/
def rsplitBeforeLast (s : String) (c : Char) : String :=
  match s.data.reverse.dropWhile (fun x => x ≠ c) with
  | [] => s
  | _ :: rest => String.mk rest.reverse

/-- The per-measurement storage update of `closest_result._process_results`
(result.py lines 964-978) for candidate `idx` of `n` candidates: entries
ending in `stddev` with score `0` are skipped; other stddev entries set
the second slot under the name with the 7-character suffix stripped
(`test[:-7]`); remaining entries set the first slot under the name
before the last dot. -/
def process_results_step (n : ℕ)
    (storage : List (String × List (Option ℚ × Option ℚ))) (idx : ℕ)
    (test : String) (score : ℚ) :
    List (String × List (Option ℚ × Option ℚ)) :=
  let update := fun (name : String) (f : Option ℚ × Option ℚ → Option ℚ × Option ℚ) =>
    if storage.any (fun p => p.1 == name) then
      storage.map (fun p =>
        if p.1 == name then (p.1, p.2.set idx (f (p.2.getD idx (none, none))))
        else p)
    else
      let slots := List.replicate n ((none, none) : Option ℚ × Option ℚ)
      storage ++ [(name, slots.set idx (f (slots.getD idx (none, none))))]
  if strEndsWith test "stddev" then
    if score = 0 then storage
    else update (String.mk (test.data.take (test.data.length - 7)))
      (fun p => (p.1, some score))
  else
    update (rsplitBeforeLast test '.') (fun p => (some score, p.2))

/-- Source `closest_result._process_results` (result.py lines 964-978) over the
flattened iteration `(idx, test, score)` of all candidates' measurement
sets, starting from the empty storage. -/
def process_results (n : ℕ) (entries : List (ℕ × String × ℚ)) :
    List (String × List (Option ℚ × Option ℚ)) :=
  entries.foldl (fun storage e =>
    process_results_step n storage e.1 e.2.1 e.2.2) []

/-- Python truthiness of an optional number (`None` and `0.0` are
falsy), as used on the baseline stddev at result.py line 1006. -/
def pyTruthy : Option ℚ → Bool
  | none => false
  | some q => q != 0

/-- The scoring-mode guard of `closest_result._calculate_stats`
(result.py line 1006): `if stddev or any(True for _ in this if _[1] is
not None)` — stddev-aware mode iff the baseline stddev is truthy or
some candidate slot carries a stddev. -/
def calc_stats_uses_stddev (stddev : Option ℚ)
    (this : List (Option ℚ × Option ℚ)) : Bool :=
  pyTruthy stddev || this.any (fun p => p.2.isSome)

/-- No test name ends in both `stddev` and `mean`: two suffixes of the
same string are comparable, and neither literal is a suffix of the
other. -/
theorem strEndsWith_stddev_not_mean (s : String)
    (h : strEndsWith s "stddev" = true) : strEndsWith s "mean" = false := by
  unfold strEndsWith at h ⊢
  rw [List.isSuffixOf_iff_suffix] at h
  by_contra hc
  rw [Bool.not_eq_false, List.isSuffixOf_iff_suffix] at hc
  rcases List.suffix_or_suffix_of_suffix hc h with h2 | h2
  · exact absurd h2 (by decide)
  · exact absurd h2 (by decide)

/-- C9: `get_uncertainty(n)` equals the table
`{1:7, 2:2.3, 3:1.7, 4:1.4, 5:1.3, 6:1.3, 7:1.2, 8:1.2}` for
`1 <= n <= 8` and is non-increasing there, equals `1.0` for every
`n > 8`, and raises (returns `none`) for every `n <= 0`. -/
theorem get_uncertainty_spec :
    (∀ n : ℤ, n ≤ 0 → get_uncertainty n = none) ∧
    (get_uncertainty 1 = some 7 ∧ get_uncertainty 2 = some (23/10) ∧
     get_uncertainty 3 = some (17/10) ∧ get_uncertainty 4 = some (14/10) ∧
     get_uncertainty 5 = some (13/10) ∧ get_uncertainty 6 = some (13/10) ∧
     get_uncertainty 7 = some (12/10) ∧ get_uncertainty 8 = some (12/10)) ∧
    (∀ m n : ℤ, 1 ≤ m → m ≤ n → n ≤ 8 →
      (get_uncertainty n).getD 0 ≤ (get_uncertainty m).getD 0) ∧
    (∀ n : ℤ, 8 < n → get_uncertainty n = some 1) := by
  refine ⟨?_, ?_, ?_, ?_⟩
  · intro n h
    unfold get_uncertainty
    rw [if_pos h]
  · refine ⟨?_, ?_, ?_, ?_, ?_, ?_, ?_, ?_⟩ <;> simp [get_uncertainty]
  · intro m n h1 h2 h3
    have h4 : m ≤ 8 := le_trans h2 h3
    have h5 : 1 ≤ n := le_trans h1 h2
    interval_cases m <;> interval_cases n <;> simp [get_uncertainty] <;> norm_num
  · intro n h
    unfold get_uncertainty
    rw [if_neg (by omega), if_neg (by omega)]

/-- Witness for C9 at `n = -1`, the pair `(3, 8)`, and `n = 9`. -/
theorem get_uncertainty_spec_witness :
    get_uncertainty (-1) = none ∧
    (get_uncertainty 8).getD 0 ≤ (get_uncertainty 3).getD 0 ∧
    get_uncertainty 9 = some 1 :=
  ⟨get_uncertainty_spec.1 (-1) (by decide),
   get_uncertainty_spec.2.2.1 3 8 (by decide) (by decide) (by decide),
   get_uncertainty_spec.2.2.2 9 (by decide)⟩

/-- C7: the raw per-metric difference and tolerance from the test name:
names ending in `mean` give `0` when `src = 0` and otherwise
`(dst - src)/|src|*100` with the mean tolerance; names ending in
`stddev` give `src - dst` with the stddev tolerance; all other names
give `0` when `src = dst`, else `1`, with tolerance `0`. -/
theorem calculate_test_difference_spec (mt st : ℚ) (name : String)
    (src dst : ℚ) :
    (strEndsWith name "mean" = true →
      calculate_test_difference mt st name src dst =
        (if src = 0 then 0 else (dst - src) / |src| * 100, mt)) ∧
    (strEndsWith name "stddev" = true →
      calculate_test_difference mt st name src dst = (src - dst, st)) ∧
    (strEndsWith name "mean" = false → strEndsWith name "stddev" = false →
      calculate_test_difference mt st name src dst =
        (if src = dst then 0 else 1, 0)) := by
  refine ⟨?_, ?_, ?_⟩
  · intro h
    by_cases hs : src = 0 <;> simp [calculate_test_difference, h, hs]
  · intro h
    have hm := strEndsWith_stddev_not_mean name h
    simp [calculate_test_difference, h, hm]
  · intro h1 h2
    simp [calculate_test_difference, h1, h2]

/-- Witness for C7 on a mean, a stddev and a generic test name. -/
theorem calculate_test_difference_spec_witness :
    calculate_test_difference 10 4 "a/b.mean" 100 104 = (4, 10) ∧
    calculate_test_difference 10 4 "a/b.stddev" 5 3 = (2, 4) ∧
    calculate_test_difference 10 4 "a/b.err" 1 2 = (1, 0) := by
  refine ⟨?_, ?_, ?_⟩
  · rw [(calculate_test_difference_spec 10 4 "a/b.mean" 100 104).1 (by decide)]
    norm_num
  · rw [(calculate_test_difference_spec 10 4 "a/b.stddev" 5 3).2.1 (by decide)]
    norm_num
  · rw [(calculate_test_difference_spec 10 4 "a/b.err" 1 2).2.2 (by decide)
      (by decide)]
    norm_num

/-- C1 (code bug): with baseline 100, mean tolerance 10 and no trained
model, destination 104 (combined score 4, within tolerance) is
classified MINOR_LOSS by the code, not PASS as the claim states,
because `WeightedResult.report` compares `diff < minor_tolerance`
instead of `diff < -minor_tolerance`; even a perfect match
(destination 100, score 0) is classified MINOR_LOSS, contradicting the
source comment `MINOR_LOSS = 2  # 1/2 tolerance loss`.  Destination
106 does yield MINOR_GAIN as claimed. -/
theorem minor_classification_failing_input :
    (record_result [] (fun _ _ => []) 10 4 "suite/test.mean" 100 104
      true none none).status = MINOR_LOSS ∧
    (record_result [] (fun _ _ => []) 10 4 "suite/test.mean" 100 100
      true none none).status = MINOR_LOSS ∧
    MINOR_LOSS ≠ PASS ∧
    (record_result [] (fun _ _ => []) 10 4 "suite/test.mean" 100 106
      true none none).status = MINOR_GAIN := by
  refine ⟨?_, ?_, by decide, ?_⟩ <;>
  · simp [record_result, record_result_state, record_result_diff_tol,
      record_result_model_state, record_result_raw_weight,
      calculate_test_difference, WeightedResult.init, WeightedResult.add,
      WeightedResult.report, WeightedResult.classify, WeightedResult.score,
      mkResult, MINOR_LOSS, MINOR_GAIN, PASS, FAIL_GAIN, FAIL_LOSS,
      show strEndsWith "suite/test.mean" "mean" = true from by decide]
    norm_num

/-- C2: `finish` returns 2 when any primary-record failure or
grouped-record failure (status < 0) exists; returns 3 when zero
records exist at all; otherwise returns 0, even when only non-primary
records failed. -/
theorem finish_spec (records grouped_records : List Result) :
    finish records grouped_records =
      if (∃ r ∈ records, r.primary = true ∧ r.status < 0) ∨
         (∃ r ∈ grouped_records, r.status < 0) then 2
      else if records = [] then 3
      else 0 := by
  unfold finish
  have h1 : ((records.filter
      (fun r => decide (r.status < 0) && r.primary)).length ≠ 0) ↔
      (∃ r ∈ records, r.primary = true ∧ r.status < 0) := by
    rw [Ne, List.length_eq_zero, List.filter_eq_nil_iff]
    push_neg
    constructor
    · rintro ⟨r, hr, hp⟩
      simp only [Bool.and_eq_true, decide_eq_true_eq] at hp
      exact ⟨r, hr, hp.2, hp.1⟩
    · rintro ⟨r, hr, hp, hs⟩
      exact ⟨r, hr, by simp [hp, hs]⟩
  have h2 : ((grouped_records.filter
      (fun r => decide (r.status < 0))).length ≠ 0) ↔
      (∃ r ∈ grouped_records, r.status < 0) := by
    rw [Ne, List.length_eq_zero, List.filter_eq_nil_iff]
    push_neg
    constructor
    · rintro ⟨r, hr, hp⟩
      exact ⟨r, hr, by simpa using hp⟩
    · rintro ⟨r, hr, hs⟩
      exact ⟨r, hr, by simp [hs]⟩
  by_cases hc : (∃ r ∈ records, r.primary = true ∧ r.status < 0) ∨
      (∃ r ∈ grouped_records, r.status < 0)
  · rw [if_pos hc, if_pos (by rw [h1, h2]; exact hc)]
  · rw [if_neg hc, if_neg (by rw [h1, h2]; exact hc)]

/-- C8: when the combined weighted score exceeds the tolerance in
absolute value, a positive score gives FAIL_GAIN, which the xml report
classifies as skipped, and a non-positive score gives FAIL_LOSS,
classified as failure. -/
theorem fail_classification_spec (m : WeightedResult) (tn : String)
    (p : Bool) (h : |m.score| > m.tolerance) :
    ((m.report tn p).score = m.score) ∧
    (m.score > 0 → (m.report tn p).status = FAIL_GAIN ∧
      xunit_element_type (m.report tn p).status = some "skipped") ∧
    (m.score ≤ 0 → (m.report tn p).status = FAIL_LOSS ∧
      xunit_element_type (m.report tn p).status = some "failure") := by
  have hcl : m.classify = if m.score > 0 then FAIL_GAIN else FAIL_LOSS := by
    unfold WeightedResult.classify
    rw [if_neg (not_le.mpr h)]
  refine ⟨rfl, ?_, ?_⟩
  · intro hpos
    have : (m.report tn p).status = FAIL_GAIN := by
      show m.classify = FAIL_GAIN
      rw [hcl, if_pos hpos]
    exact ⟨this, by rw [this]; decide⟩
  · intro hnonpos
    have : (m.report tn p).status = FAIL_LOSS := by
      show m.classify = FAIL_LOSS
      rw [hcl, if_neg (not_lt.mpr hnonpos)]
    exact ⟨this, by rw [this]; decide⟩

/-- Witness for C8 at scores 20 and -20 against tolerance 10. -/
theorem fail_classification_spec_witness :
    (WeightedResult.report ⟨[100], 120, 10, [], [], [], 20, 1⟩
      "suite/test.mean" true).status = FAIL_GAIN ∧
    xunit_element_type (WeightedResult.report ⟨[100], 120, 10, [], [], [], 20, 1⟩
      "suite/test.mean" true).status = some "skipped" ∧
    (WeightedResult.report ⟨[100], 80, 10, [], [], [], -20, 1⟩
      "suite/test.mean" true).status = FAIL_LOSS ∧
    xunit_element_type (WeightedResult.report ⟨[100], 80, 10, [], [], [], -20, 1⟩
      "suite/test.mean" true).status = some "failure" := by
  have h1 := (fail_classification_spec ⟨[100], 120, 10, [], [], [], 20, 1⟩
    "suite/test.mean" true (by norm_num [WeightedResult.score])).2.1
    (by norm_num [WeightedResult.score])
  have h2 := (fail_classification_spec ⟨[100], 80, 10, [], [], [], -20, 1⟩
    "suite/test.mean" true (by norm_num [WeightedResult.score])).2.2
    (by norm_num [WeightedResult.score])
  exact ⟨h1.1, h1.2, h2.1, h2.2⟩

theorem add_agg_weights (m : WeightedResult) (l : String) (d w : ℚ)
    (s : Option ℚ) : (m.add l d w s).agg_weights = m.agg_weights + w := by
  unfold WeightedResult.add
  cases s <;> dsimp <;> split <;> first | rfl | (split <;> rfl)

theorem foldl_add_agg_weights (ops : List Opinion) (f : Opinion → String)
    (m : WeightedResult) :
    (ops.foldl (fun m r => m.add (f r) r.difference r.weight r.src)
      m).agg_weights = m.agg_weights + (ops.map Opinion.weight).sum := by
  induction ops generalizing m with
  | nil => simp
  | cons o rest ih =>
      simp only [List.foldl_cons, List.map_cons, List.sum_cons, ih,
        add_agg_weights]
      ring

theorem averages_fold_agg_weights (qs : List (String × ℚ × ℚ))
    (m : WeightedResult) :
    ((qs.foldl (fun m r => m.add r.1 r.2.1 r.2.2 none) m)).agg_weights
      = m.agg_weights + (qs.map (fun q => q.2.2)).sum := by
  induction qs generalizing m with
  | nil => simp
  | cons q rest ih =>
      simp only [List.foldl_cons, List.map_cons, List.sum_cons, ih,
        add_agg_weights]
      ring

theorem enum_fold_agg_weights (models : List ModelFn) (k : ℕ) (tn : String)
    (src dst : ℚ) (m : WeightedResult) :
    ((models.enumFrom k).foldl (fun m p =>
      (p.2 tn src dst).foldl (fun m r =>
        m.add (r.name ++ toString p.1) r.difference r.weight r.src) m)
      m).agg_weights
      = m.agg_weights +
        (models.map (fun f => ((f tn src dst).map Opinion.weight).sum)).sum := by
  induction models generalizing k m with
  | nil => simp
  | cons f rest ih =>
      simp only [List.enumFrom_cons, List.foldl_cons, List.map_cons,
        List.sum_cons]
      rw [ih, foldl_add_agg_weights]
      ring

theorem model_state_agg_weights (models : List ModelFn) (dst tol : ℚ)
    (tn : String) (src : ℚ) :
    (record_result_model_state models dst tol tn src).agg_weights
      = model_weight_total models tn src dst := by
  unfold record_result_model_state model_weight_total List.enum
  rw [enum_fold_agg_weights]
  simp [WeightedResult.init]

/-- C4: the raw-difference opinion is given weight 1 exactly when the
configured models contributed zero total weight (and weight 0
otherwise), so with non-negative model and averages weights the total
weight of `record_result` is strictly positive and the combined score
never divides by zero. -/
theorem record_result_weight_spec (models : List ModelFn)
    (averages : AveragesFn) (mt st : ℚ) (tn : String) (src dst : ℚ)
    (d? t? : Option ℚ)
    (hm : ∀ f ∈ models, ∀ op ∈ f tn src dst, 0 ≤ op.weight)
    (ha : ∀ s : ℚ, ∀ q ∈ averages tn s, 0 ≤ q.2.2) :
    (∀ tol : ℚ, record_result_raw_weight models dst tol tn src
      = (if model_weight_total models tn src dst = 0 then 1 else 0)) ∧
    0 < (record_result_state models averages mt st tn src dst
      d? t?).agg_weights := by
  have hw0 : 0 ≤ model_weight_total models tn src dst := by
    apply List.sum_nonneg
    intro x hx
    rcases List.mem_map.mp hx with ⟨f, hf, rfl⟩
    apply List.sum_nonneg
    intro y hy
    rcases List.mem_map.mp hy with ⟨op, hop, rfl⟩
    exact hm f hf op hop
  have havg : ∀ s : ℚ, 0 ≤ ((averages tn s).map (fun q => q.2.2)).sum := by
    intro s
    apply List.sum_nonneg
    intro x hx
    rcases List.mem_map.mp hx with ⟨q, hq, rfl⟩
    exact ha s q hq
  constructor
  · intro tol
    unfold record_result_raw_weight
    rw [model_state_agg_weights]
  · unfold record_result_state
    rw [averages_fold_agg_weights]
    generalize ((record_result_model_state models dst
      (record_result_diff_tol mt st tn src dst d? t?).2 tn src).add "raw"
      (record_result_diff_tol mt st tn src dst d? t?).1
      (record_result_raw_weight models dst
        (record_result_diff_tol mt st tn src dst d? t?).2 tn src)
      (some src)).score = s0
    rw [add_agg_weights, model_state_agg_weights]
    unfold record_result_raw_weight
    rw [model_state_agg_weights]
    by_cases hz : model_weight_total models tn src dst = 0
    · rw [if_pos hz, hz]
      linarith [havg s0]
    · rw [if_neg hz]
      have hpos := lt_of_le_of_ne hw0 (Ne.symm hz)
      linarith [havg s0]

/-- Witness for C4 with no models and no averages opinions. -/
theorem record_result_weight_spec_witness :
    record_result_raw_weight [] 104 10 "suite/test.mean" 100
      = (if model_weight_total [] "suite/test.mean" 100 104 = 0
         then 1 else 0) ∧
    0 < (record_result_state [] (fun _ _ => []) 10 4 "suite/test.mean"
      100 104 none none).agg_weights := by
  have h := record_result_weight_spec [] (fun _ _ => []) 10 4
    "suite/test.mean" 100 104 none none (by simp) (by simp)
  exact ⟨h.1 10, h.2⟩

theorem add_dst (m : WeightedResult) (l : String) (d w : ℚ)
    (s : Option ℚ) : (m.add l d w s).dst = m.dst := by
  unfold WeightedResult.add
  cases s <;> dsimp <;> split <;> first | rfl | (split <;> rfl)

theorem add_srcs_some (m : WeightedResult) (l : String) (d w s : ℚ) :
    (m.add l d w (some s)).srcs = m.srcs ++ [s] := by
  unfold WeightedResult.add
  dsimp
  split <;> first | rfl | (split <;> rfl)

theorem add_srcs_none (m : WeightedResult) (l : String) (d w : ℚ) :
    (m.add l d w none).srcs = m.srcs := by
  unfold WeightedResult.add
  dsimp
  split <;> first | rfl | (split <;> rfl)

theorem averages_fold_dst (qs : List (String × ℚ × ℚ)) (m : WeightedResult) :
    ((qs.foldl (fun m r => m.add r.1 r.2.1 r.2.2 none) m)).dst = m.dst := by
  induction qs generalizing m with
  | nil => rfl
  | cons q rest ih => simp only [List.foldl_cons, ih, add_dst]

theorem averages_fold_srcs (qs : List (String × ℚ × ℚ)) (m : WeightedResult) :
    ((qs.foldl (fun m r => m.add r.1 r.2.1 r.2.2 none) m)).srcs = m.srcs := by
  induction qs generalizing m with
  | nil => rfl
  | cons q rest ih => simp only [List.foldl_cons, ih, add_srcs_none]

theorem foldl_add_dst (ops : List Opinion) (f : Opinion → String)
    (m : WeightedResult) :
    (ops.foldl (fun m r => m.add (f r) r.difference r.weight r.src)
      m).dst = m.dst := by
  induction ops generalizing m with
  | nil => rfl
  | cons o rest ih => simp only [List.foldl_cons, ih, add_dst]

theorem enum_fold_dst (models : List ModelFn) (k : ℕ) (tn : String)
    (src dst : ℚ) (m : WeightedResult) :
    ((models.enumFrom k).foldl (fun m p =>
      (p.2 tn src dst).foldl (fun m r =>
        m.add (r.name ++ toString p.1) r.difference r.weight r.src) m)
      m).dst = m.dst := by
  induction models generalizing k m with
  | nil => rfl
  | cons f rest ih =>
      simp only [List.enumFrom_cons, List.foldl_cons]
      rw [ih, foldl_add_dst]

theorem model_state_dst (models : List ModelFn) (dst tol : ℚ)
    (tn : String) (src : ℚ) :
    (record_result_model_state models dst tol tn src).dst = dst := by
  unfold record_result_model_state List.enum
  rw [enum_fold_dst]
  rfl

theorem record_result_src (models : List ModelFn) (averages : AveragesFn)
    (mt st : ℚ) (tn : String) (src dst : ℚ) (p : Bool)
    (d? t? : Option ℚ) :
    (record_result models averages mt st tn src dst p d? t?).src = src := by
  unfold record_result WeightedResult.report mkResult
  dsimp
  unfold record_result_state
  rw [averages_fold_srcs, add_srcs_some, List.getLastD_concat]

theorem record_result_dst (models : List ModelFn) (averages : AveragesFn)
    (mt st : ℚ) (tn : String) (src dst : ℚ) (p : Bool)
    (d? t? : Option ℚ) :
    (record_result models averages mt st tn src dst p d? t?).dst = dst := by
  unfold record_result WeightedResult.report mkResult
  dsimp
  unfold record_result_state
  rw [averages_fold_dst, add_dst, model_state_dst]

theorem groupScores_go_ne_nil (key : Result → String) (records : List Result) :
    ∀ (acc : List (String × List ℚ)), (∀ p ∈ acc, p.2 ≠ []) →
    ∀ p ∈ records.foldl (fun acc r =>
      let k := key r
      if acc.any (fun p => p.1 == k) then
        acc.map (fun p => if p.1 == k then (p.1, p.2 ++ [r.score]) else p)
      else acc ++ [(k, [r.score])]) acc, p.2 ≠ [] := by
  induction records with
  | nil => intro acc h; simpa using h
  | cons r rest ih =>
      intro acc h
      simp only [List.foldl_cons]
      apply ih
      intro p hp
      split at hp
      · rcases List.mem_map.mp hp with ⟨q, hq, rfl⟩
        split
        · simp
        · exact h q hq
      · rcases List.mem_append.mp hp with hq | hq
        · exact h p hq
        · simp only [List.mem_singleton] at hq
          subst hq
          simp

theorem groupScores_ne_nil (key : Result → String) (records : List Result) :
    ∀ p ∈ groupScores key records, p.2 ≠ [] := by
  unfold groupScores
  exact groupScores_go_ne_nil key records [] (by simp)

theorem get_uncertainty_pos (n : ℕ) (h : n ≠ 0) :
    get_uncertainty (n : ℤ) = some (uncertaintyD n) := by
  have hex : ∃ u, get_uncertainty (n : ℤ) = some u := by
    unfold get_uncertainty
    rw [if_neg (by omega)]
    by_cases h8 : (n : ℤ) ≤ 8
    · rw [if_pos h8]; exact ⟨_, rfl⟩
    · rw [if_neg h8]; exact ⟨_, rfl⟩
  rcases hex with ⟨u, hu⟩
  unfold uncertaintyD
  rw [hu]
  rfl

/-- C5: every group of a grouping pass yields exactly one synthetic
grouped record, recorded through `record_result` with tolerance
`mean_tolerance * uncertainty(group_size) / 2` and with `src` and
`dst` both equal to the average of the member scores. -/
theorem expand_grouped_spec (models : List ModelFn) (averages : AveragesFn)
    (mean_tolerance st : ℚ) (key : Result → String) (records : List Result) :
    ∀ p ∈ groupScores key records,
      p.2 ≠ [] ∧
      get_uncertainty (p.2.length : ℤ) = some (uncertaintyD p.2.length) ∧
      (p.1, npAverage p.2, mean_tolerance * uncertaintyD p.2.length / 2)
        ∈ expand_grouped_calls mean_tolerance key records ∧
      npAverage p.2 = p.2.sum / (p.2.length : ℚ) ∧
      (record_result models averages mean_tolerance st p.1 (npAverage p.2)
        (npAverage p.2) true (some (npAverage p.2))
        (some (mean_tolerance * uncertaintyD p.2.length / 2))).src
        = npAverage p.2 ∧
      (record_result models averages mean_tolerance st p.1 (npAverage p.2)
        (npAverage p.2) true (some (npAverage p.2))
        (some (mean_tolerance * uncertaintyD p.2.length / 2))).dst
        = npAverage p.2 ∧
      (record_result models averages mean_tolerance st p.1 (npAverage p.2)
        (npAverage p.2) true (some (npAverage p.2))
        (some (mean_tolerance * uncertaintyD p.2.length / 2)))
        ∈ expand_grouped_result models averages mean_tolerance st key
            records := by
  intro p hp
  have hne := groupScores_ne_nil key records p hp
  have hlen : p.2.length ≠ 0 := by
    intro h0
    exact hne (List.length_eq_zero.mp h0)
  have hc : (p.1, npAverage p.2,
      mean_tolerance * uncertaintyD p.2.length / 2)
      ∈ expand_grouped_calls mean_tolerance key records :=
    List.mem_map_of_mem _ hp
  have hr := List.mem_map_of_mem (fun c =>
    record_result models averages mean_tolerance st c.1 c.2.1 c.2.1 true
      (some c.2.1) (some c.2.2)) hc
  exact ⟨hne, get_uncertainty_pos _ hlen, hc, rfl,
    record_result_src models averages mean_tolerance st p.1 (npAverage p.2)
      (npAverage p.2) true (some (npAverage p.2))
      (some (mean_tolerance * uncertaintyD p.2.length / 2)),
    record_result_dst models averages mean_tolerance st p.1 (npAverage p.2)
      (npAverage p.2) true (some (npAverage p.2))
      (some (mean_tolerance * uncertaintyD p.2.length / 2)), hr⟩

/-- Witness for C5 on a single-record group. -/
theorem expand_grouped_spec_witness :
    ([(4:ℚ)] ≠ []) ∧
    get_uncertainty (([(4:ℚ)].length : ℕ) : ℤ)
      = some (uncertaintyD [(4:ℚ)].length) ∧
    (("g", npAverage [(4:ℚ)], 10 * uncertaintyD [(4:ℚ)].length / 2)
      ∈ expand_grouped_calls 10 (fun _ => "g")
          [mkResult PASS 4 "a/b.mean" 100 104 none true]) ∧
    npAverage [(4:ℚ)] = [(4:ℚ)].sum / (([(4:ℚ)].length : ℕ) : ℚ) ∧
    (record_result [] (fun _ _ => []) 10 4 "g" (npAverage [(4:ℚ)])
      (npAverage [(4:ℚ)]) true (some (npAverage [(4:ℚ)]))
      (some (10 * uncertaintyD [(4:ℚ)].length / 2))).src = npAverage [(4:ℚ)] ∧
    (record_result [] (fun _ _ => []) 10 4 "g" (npAverage [(4:ℚ)])
      (npAverage [(4:ℚ)]) true (some (npAverage [(4:ℚ)]))
      (some (10 * uncertaintyD [(4:ℚ)].length / 2))).dst = npAverage [(4:ℚ)] ∧
    (record_result [] (fun _ _ => []) 10 4 "g" (npAverage [(4:ℚ)])
      (npAverage [(4:ℚ)]) true (some (npAverage [(4:ℚ)]))
      (some (10 * uncertaintyD [(4:ℚ)].length / 2)))
      ∈ expand_grouped_result [] (fun _ _ => []) 10 4 (fun _ => "g")
          [mkResult PASS 4 "a/b.mean" 100 104 none true] :=
  expand_grouped_spec [] (fun _ _ => []) 10 4 (fun _ => "g")
    [mkResult PASS 4 "a/b.mean" 100 104 none true] ("g", [4])
    (by simp [groupScores, mkResult])

theorem add_result_dst_loop_length (models : List ModelFn)
    (averages : AveragesFn) (mt st : ℚ)
    (src_results : List (String × ℚ × Bool)) :
    ∀ (dst : List Measurement) (src_tests : List String),
    (add_result_dst_loop models averages mt st src_results src_tests
      dst).1.length = dst.length := by
  intro dst
  induction dst with
  | nil => intro src_tests; rfl
  | cons m rest ih =>
      intro src_tests
      unfold add_result_dst_loop
      split
      · simp [ih]
      · simp [ih]

theorem add_result_dst_loop_missing (models : List ModelFn)
    (averages : AveragesFn) (mt st : ℚ)
    (src_results : List (String × ℚ × Bool)) :
    ∀ (dst : List Measurement) (src_tests : List String) (name : String),
    name ∈ src_tests → (∀ m ∈ dst, m.test ≠ name) →
    name ∈ (add_result_dst_loop models averages mt st src_results src_tests
      dst).2 := by
  intro dst
  induction dst with
  | nil => intro src_tests name h _; exact h
  | cons m rest ih =>
      intro src_tests name h hne
      unfold add_result_dst_loop
      split
      · exact ih _ name
          ((List.mem_erase_of_ne (Ne.symm (hne m (by simp)))).mpr h)
          (fun x hx => hne x (by simp [hx]))
      · exact ih _ name h (fun x hx => hne x (by simp [hx]))

theorem add_result_dst_loop_broken (models : List ModelFn)
    (averages : AveragesFn) (mt st : ℚ)
    (src_results : List (String × ℚ × Bool)) :
    ∀ (dst : List Measurement) (src_tests : List String) (m : Measurement),
    m ∈ dst → m.test ∉ src_tests →
    record_broken m.test
        (some ("Not present in source results (" ++ toString m.score ++ ")."))
        m.primary
      ∈ (add_result_dst_loop models averages mt st src_results src_tests
          dst).1 := by
  intro dst
  induction dst with
  | nil => intro _ _ h; simp at h
  | cons x rest ih =>
      intro src_tests m hm hnotin
      unfold add_result_dst_loop
      rcases List.mem_cons.mp hm with rfl | hm2
      · rw [if_neg hnotin]
        simp
      · split
        · refine List.mem_cons_of_mem _ (ih _ m hm2 ?_)
          intro hc
          exact hnotin (List.mem_of_mem_erase hc)
        · exact List.mem_cons_of_mem _ (ih _ m hm2 hnotin)

/-- C6: a baseline metric never matched by the destination set yields a
broken Result with ERROR status and score -100, an unmatched
destination metric likewise yields a broken Result, and the comparison
produces a record for every metric of both sets (total function, no
crash). -/
theorem add_result_by_path_spec (models : List ModelFn)
    (averages : AveragesFn) (mt st : ℚ)
    (src_results : List (String × ℚ × Bool))
    (dst_results : List Measurement) :
    (∀ (name : String) (details : Option String) (primary : Bool),
      (record_broken name details primary).status = ERROR ∧
      (record_broken name details primary).score = -100) ∧
    (add_result_by_path models averages mt st src_results
        dst_results).length
      = dst_results.length +
        (add_result_dst_loop models averages mt st src_results
          (src_results.map (fun p => p.1)) dst_results).2.length ∧
    (∀ name, name ∈ src_results.map (fun p => p.1) →
      (∀ m ∈ dst_results, m.test ≠ name) →
      record_broken name (some "Not present in target results (-100)")
          ((src_results.lookup name).getD (0, false)).2
        ∈ add_result_by_path models averages mt st src_results
            dst_results) ∧
    (∀ m ∈ dst_results, m.test ∉ src_results.map (fun p => p.1) →
      record_broken m.test
          (some ("Not present in source results ("
            ++ toString m.score ++ ")."))
          m.primary
        ∈ add_result_by_path models averages mt st src_results
            dst_results) := by
  refine ⟨fun _ _ _ => ⟨rfl, rfl⟩, ?_, ?_, ?_⟩
  · unfold add_result_by_path
    simp [add_result_dst_loop_length]
  · intro name hname hne
    unfold add_result_by_path
    apply List.mem_append_right
    apply List.mem_map_of_mem
    exact add_result_dst_loop_missing models averages mt st src_results
      dst_results _ name hname hne
  · intro m hm hnotin
    unfold add_result_by_path
    apply List.mem_append_left
    exact add_result_dst_loop_broken models averages mt st src_results
      dst_results _ m hm hnotin

theorem nodup_all_eq_singleton {l : List ℕ} {a : ℕ} (hj : a ∈ l)
    (hall : ∀ b ∈ l, b = a) (hnd : l.Nodup) : l = [a] := by
  cases l with
  | nil => simp at hj
  | cons x t =>
      have hx : x = a := hall x (by simp)
      subst hx
      cases t with
      | nil => rfl
      | cons y t2 =>
          have hy : y = x := hall y (by simp)
          rw [List.nodup_cons] at hnd
          exact absurd (hy ▸ List.mem_cons_self y t2) hnd.1

theorem count_eq_range_countP (l : List ℚ) (a : ℚ) :
    (List.range l.length).countP (fun k => l.getD k 0 == a) = l.count a := by
  induction l with
  | nil => rfl
  | cons x xs ih =>
      rw [List.count_cons, List.length_cons, List.range_succ_eq_map,
        List.countP_cons, List.countP_map]
      have hcomp : ((fun k => (x :: xs).getD k 0 == a) ∘ Nat.succ)
          = (fun k => xs.getD k 0 == a) := by
        funext k
        simp [List.getD_cons_succ]
      rw [hcomp, ih]
      rfl

theorem getD_eq_of_count_one (l : List ℚ) (a : ℚ) (h : l.count a = 1)
    {i j : ℕ} (hi : i < l.length) (hj : j < l.length)
    (hia : l.getD i 0 = a) (hja : l.getD j 0 = a) : i = j := by
  have hlen : ((List.range l.length).filter
      (fun k => l.getD k 0 == a)).length = 1 := by
    rw [← List.countP_eq_length_filter, count_eq_range_countP, h]
  rcases List.length_eq_one.mp hlen with ⟨b, hb⟩
  have hmem : ∀ k, k < l.length → l.getD k 0 = a → k = b := by
    intro k hk hka
    have hkin : k ∈ (List.range l.length).filter
        (fun k => l.getD k 0 == a) := by
      rw [List.mem_filter]
      exact ⟨List.mem_range.mpr hk, beq_iff_eq.mpr hka⟩
    rw [hb] at hkin
    exact List.mem_singleton.mp hkin
  rw [hmem i hi hia, hmem j hj hja]

theorem sel_max_attained (storage : List ℚ) (sel : List ℕ) (hne : sel ≠ []) :
    (∃ i ∈ sel, storage.getD i 0
      = ((sel.map (fun i => storage.getD i 0)).maximum).getD 0) ∧
    (∀ i ∈ sel, storage.getD i 0
      ≤ ((sel.map (fun i => storage.getD i 0)).maximum).getD 0) := by
  have hmapne : sel.map (fun i => storage.getD i 0) ≠ [] := by
    simpa using hne
  have hex : (sel.map (fun i => storage.getD i 0)).maximum ≠ ⊥ :=
    List.maximum_ne_bot_of_ne_nil hmapne
  obtain ⟨M, hM⟩ := Option.ne_none_iff_exists'.mp hex
  rw [hM]
  constructor
  · have hmm := List.maximum_mem hM
    rcases List.mem_map.mp hmm with ⟨i, hi, hfi⟩
    exact ⟨i, hi, by rw [hfi]; rfl⟩
  · intro i hi
    have hle := List.le_maximum_of_mem (List.mem_map_of_mem _ hi) hM
    exact_mod_cast hle

theorem argmaxFilter_ne_nil (storage : List ℚ) (sel : List ℕ)
    (hne : sel ≠ []) : argmaxFilter storage sel ≠ [] := by
  rcases (sel_max_attained storage sel hne).1 with ⟨i, hi, hfi⟩
  intro hnil
  have hmem : i ∈ argmaxFilter storage sel := by
    rw [argmaxFilter, List.mem_filter]
    exact ⟨hi, beq_iff_eq.mpr hfi⟩
  rw [hnil] at hmem
  simp at hmem

theorem argmaxFilter_subset (storage : List ℚ) (sel : List ℕ) :
    ∀ i ∈ argmaxFilter storage sel, i ∈ sel :=
  fun _ hi => (List.mem_filter.mp hi).1

theorem headD_mem {l : List ℕ} (h : l ≠ []) : l.headD 0 ∈ l := by
  cases l with
  | nil => exact absurd rfl h
  | cons a t => simp [List.headD]

theorem process_score_spec (storage : List ℚ) (sel : List ℕ)
    (hne : sel ≠ []) (hsort : sel.Pairwise (· < ·))
    (hbound : ∀ i ∈ sel, i < storage.length) :
    (∃ i, process_score storage sel = Sum.inl i ∧
      argmaxFilter storage sel = [i]) ∨
    process_score storage sel = Sum.inr (argmaxFilter storage sel) := by
  haveI : IsAntisymm ℕ (· < ·) :=
    ⟨fun a b h1 h2 => absurd h2 (Nat.lt_asymm h1)⟩
  have hnd : sel.Nodup := List.Pairwise.imp (fun h => Nat.ne_of_lt h) hsort
  unfold process_score
  by_cases hcount : storage.count
      (((sel.map (fun i => storage.getD i 0)).maximum).getD 0) = 1
  · rw [if_pos hcount]
    rcases (sel_max_attained storage sel hne).1 with ⟨i0, hi0, hfi0⟩
    have hfind : (sel.find? (fun i => storage.getD i 0 ==
        ((sel.map (fun i => storage.getD i 0)).maximum).getD 0)).isSome := by
      rw [List.find?_isSome]
      exact ⟨i0, hi0, beq_iff_eq.mpr hfi0⟩
    obtain ⟨j, hj⟩ := Option.isSome_iff_exists.mp hfind
    rw [hj]
    left
    refine ⟨j, rfl, ?_⟩
    have hjsel : j ∈ sel := List.mem_of_find?_eq_some hj
    have hjM : storage.getD j 0 =
        ((sel.map (fun i => storage.getD i 0)).maximum).getD 0 := by
      have hp := List.find?_some hj
      exact beq_iff_eq.mp hp
    apply nodup_all_eq_singleton
    · rw [argmaxFilter, List.mem_filter]
      exact ⟨hjsel, beq_iff_eq.mpr hjM⟩
    · intro b hb
      rw [argmaxFilter, List.mem_filter] at hb
      exact getD_eq_of_count_one storage _ hcount (hbound b hb.1)
        (hbound j hjsel) (beq_iff_eq.mp hb.2) hjM
    · exact List.Nodup.filter _ hnd
  · rw [if_neg hcount]
    right
    congr 1
    apply List.eq_of_perm_of_sorted (r := fun a b => a < b)
    · apply (List.perm_ext_iff_of_nodup ?_ ?_).mpr
      · intro a
        simp only [List.mem_filter, List.mem_range, Bool.and_eq_true,
          decide_eq_true_eq, beq_iff_eq, argmaxFilter]
        constructor
        · rintro ⟨_, hs, hM⟩
          exact ⟨hs, hM⟩
        · rintro ⟨hs, hM⟩
          exact ⟨hbound a hs, hs, hM⟩
      · exact List.Nodup.filter _ (List.nodup_range storage.length)
      · exact List.Nodup.filter _ hnd
    · exact List.Pairwise.filter _ (List.pairwise_lt_range storage.length)
    · exact List.Pairwise.filter _ hsort

theorem argmaxFilter_singleton (storage : List ℚ) (i : ℕ) :
    argmaxFilter storage [i] = [i] := by
  unfold argmaxFilter
  simp
  rfl

/-- C3: the selection layer of `closest_result` returns the index of
the candidate with the maximum primary-metric total, breaking ties by
the maximum secondary-metric total among the tied candidates and then
by the first surviving index, and the returned index always lies in
`[0, n)`. -/
theorem closest_result_select_spec (primary secondary : List ℚ) (n : ℕ)
    (hn : 0 < n) (hp : primary.length = n) (hs : secondary.length = n) :
    closest_result_select primary secondary n
      = closest_result_spec primary secondary n ∧
    closest_result_select primary secondary n
      ∈ argmaxFilter secondary (argmaxFilter primary (List.range n)) ∧
    closest_result_select primary secondary n < n := by
  have hne0 : List.range n ≠ [] := by
    simp only [ne_eq, List.range_eq_nil]
    omega
  have hsort0 : (List.range n).Pairwise (· < ·) := List.pairwise_lt_range n
  have hbound0 : ∀ i ∈ List.range n, i < primary.length := by
    intro i hi
    rw [hp]
    exact List.mem_range.mp hi
  have hAF1ne : argmaxFilter primary (List.range n) ≠ [] :=
    argmaxFilter_ne_nil _ _ hne0
  have hAF1sort : (argmaxFilter primary (List.range n)).Pairwise (· < ·) :=
    List.Pairwise.filter _ hsort0
  have hAF1bound : ∀ i ∈ argmaxFilter primary (List.range n),
      i < secondary.length := by
    intro i hi
    rw [hs]
    exact List.mem_range.mp (argmaxFilter_subset _ _ _ hi)
  unfold closest_result_select closest_result_spec
  rcases process_score_spec primary (List.range n) hne0 hsort0 hbound0 with
    ⟨i, hps, hAF⟩ | hps
  · rw [hps]
    dsimp only
    rw [hAF, argmaxFilter_singleton]
    have himem : i ∈ argmaxFilter primary (List.range n) := by
      rw [hAF]
      simp
    exact ⟨rfl, List.mem_singleton.mpr rfl,
      List.mem_range.mp (argmaxFilter_subset _ _ _ himem)⟩
  · rw [hps]
    dsimp only
    have hAF2ne : argmaxFilter secondary (argmaxFilter primary
        (List.range n)) ≠ [] := argmaxFilter_ne_nil _ _ hAF1ne
    rcases process_score_spec secondary (argmaxFilter primary (List.range n))
        hAF1ne hAF1sort hAF1bound with ⟨i, hps2, hAF2⟩ | hps2
    · rw [hps2]
      dsimp only
      rw [hAF2]
      exact ⟨rfl, List.mem_singleton.mpr rfl,
        List.mem_range.mp (argmaxFilter_subset _ _ _
          (argmaxFilter_subset _ _ _ (by rw [hAF2]; simp)))⟩
    · rw [hps2]
      dsimp only
      have hmem := headD_mem hAF2ne
      exact ⟨rfl, hmem,
        List.mem_range.mp (argmaxFilter_subset _ _ _
          (argmaxFilter_subset _ _ _ hmem))⟩

/-- Witness for C3 on a primary tie broken by the secondary totals. -/
theorem closest_result_select_spec_witness :
    closest_result_select [1, 2, 2] [5, 3, 4] 3
      = closest_result_spec [1, 2, 2] [5, 3, 4] 3 ∧
    closest_result_select [1, 2, 2] [5, 3, 4] 3
      ∈ argmaxFilter [5, 3, 4] (argmaxFilter [1, 2, 2] (List.range 3)) ∧
    closest_result_select [1, 2, 2] [5, 3, 4] 3 < 3 :=
  closest_result_select_spec [1, 2, 2] [5, 3, 4] 3 (by decide) (by decide)
    (by decide)

theorem getD_snd_none (l : List (Option ℚ × Option ℚ)) (i : ℕ)
    (h : ∀ q ∈ l, q.2 = none) : (l.getD i (none, none)).2 = none := by
  rw [List.getD_eq_getElem?_getD]
  cases hq : l[i]? with
  | none => simp [hq]
  | some x =>
      simp only [Option.getD_some]
      exact h x (List.getElem?_mem hq)

theorem process_results_step_skip (n : ℕ)
    (storage : List (String × List (Option ℚ × Option ℚ))) (idx : ℕ)
    (test : String) (score : ℚ)
    (hs : strEndsWith test "stddev" = true) (h0 : score = 0) :
    process_results_step n storage idx test score = storage := by
  unfold process_results_step
  rw [if_pos hs, if_pos h0]

theorem process_results_step_preserves (n : ℕ)
    (storage : List (String × List (Option ℚ × Option ℚ))) (idx : ℕ)
    (test : String) (score : ℚ)
    (hst : ∀ p ∈ storage, ∀ q ∈ p.2, q.2 = none)
    (hsc : strEndsWith test "stddev" = true → score = 0) :
    ∀ p ∈ process_results_step n storage idx test score,
      ∀ q ∈ p.2, q.2 = none := by
  by_cases hs : strEndsWith test "stddev" = true
  · rw [process_results_step_skip n storage idx test score hs (hsc hs)]
    exact hst
  · unfold process_results_step
    rw [if_neg hs]
    dsimp only
    split
    · intro p hp
      rcases List.mem_map.mp hp with ⟨q, hq, rfl⟩
      split
      · intro x hx
        rcases List.mem_or_eq_of_mem_set hx with hxl | rfl
        · exact hst q hq x hxl
        · exact getD_snd_none q.2 idx (hst q hq)
      · exact hst q hq
    · intro p hp
      rcases List.mem_append.mp hp with hpl | hpr
      · exact hst p hpl
      · rw [List.mem_singleton] at hpr
        subst hpr
        intro x hx
        rcases List.mem_or_eq_of_mem_set hx with hxl | rfl
        · exact (List.eq_of_mem_replicate hxl) ▸ rfl
        · apply getD_snd_none
          intro q hq
          exact (List.eq_of_mem_replicate hq) ▸ rfl

theorem process_results_all_none (n : ℕ) (entries : List (ℕ × String × ℚ))
    (hsc : ∀ e ∈ entries, strEndsWith e.2.1 "stddev" = true → e.2.2 = 0) :
    ∀ p ∈ process_results n entries, ∀ q ∈ p.2, q.2 = none := by
  unfold process_results
  have hgen : ∀ (l : List (ℕ × String × ℚ))
      (storage : List (String × List (Option ℚ × Option ℚ))),
      (∀ e ∈ l, strEndsWith e.2.1 "stddev" = true → e.2.2 = 0) →
      (∀ p ∈ storage, ∀ q ∈ p.2, q.2 = none) →
      ∀ p ∈ l.foldl (fun storage e =>
        process_results_step n storage e.1 e.2.1 e.2.2) storage,
        ∀ q ∈ p.2, q.2 = none := by
    intro l
    induction l with
    | nil => intro storage _ hst; simpa using hst
    | cons e rest ih =>
        intro storage hl hst
        simp only [List.foldl_cons]
        exact ih _ (fun x hx => hl x (by simp [hx]))
          (process_results_step_preserves n storage e.1 e.2.1 e.2.2 hst
            (hl e (by simp)))
  exact hgen entries [] hsc (by simp)

/-- C10: `closest_result` treats a zero stddev as unknown: zero-valued
candidate stddevs are discarded while collecting measurements, and a
zero (or missing) baseline stddev with no candidate stddevs leaves the
stddev-aware guard false, so such metrics are scored in distance-only
mode. -/
theorem closest_stddev_zero_spec :
    (∀ (n : ℕ) (storage : List (String × List (Option ℚ × Option ℚ)))
      (idx : ℕ) (test : String) (score : ℚ),
      strEndsWith test "stddev" = true → score = 0 →
      process_results_step n storage idx test score = storage) ∧
    (∀ l : List (Option ℚ × Option ℚ), (∀ q ∈ l, q.2 = none) →
      calc_stats_uses_stddev (some 0) l = false ∧
      calc_stats_uses_stddev none l = false) ∧
    (∀ (n : ℕ) (entries : List (ℕ × String × ℚ)),
      (∀ e ∈ entries, strEndsWith e.2.1 "stddev" = true → e.2.2 = 0) →
      ∀ p ∈ process_results n entries,
        calc_stats_uses_stddev (some 0) p.2 = false) := by
  have hmode : ∀ l : List (Option ℚ × Option ℚ), (∀ q ∈ l, q.2 = none) →
      calc_stats_uses_stddev (some 0) l = false ∧
      calc_stats_uses_stddev none l = false := by
    intro l h
    have hany : l.any (fun p => p.2.isSome) = false := by
      rw [List.any_eq_false]
      intro q hq
      rw [h q hq]
      simp
    constructor
    · unfold calc_stats_uses_stddev pyTruthy
      rw [hany]
      simp
    · unfold calc_stats_uses_stddev pyTruthy
      rw [hany]
      simp
  refine ⟨fun n storage idx test score hs h0 =>
    process_results_step_skip n storage idx test score hs h0, hmode, ?_⟩
  intro n entries hsc p hp
  exact (hmode p.2 (process_results_all_none n entries hsc p hp)).1

/-- Witness for C10 on a skipped zero-stddev entry and the storage of a
two-candidate run whose only stddev is zero. -/
theorem closest_stddev_zero_spec_witness :
    process_results_step 2 [("a", [(some 5, none)])] 0 "x.stddev" 0
      = [("a", [(some 5, none)])] ∧
    calc_stats_uses_stddev (some 0) [(some 5, none), (none, none)]
      = false :=
  ⟨closest_stddev_zero_spec.1 2 [("a", [(some 5, none)])] 0 "x.stddev" 0
      (by decide) rfl,
   closest_stddev_zero_spec.2.2 2
      [(0, "a:./b/c/d.mean", 5), (1, "a:./b/c/d.stddev", 0)]
      (by decide) ("a:./b/c/d", [(some 5, none), (none, none)])
      (by decide)⟩

/-- Witness for C6 with one baseline metric and an empty destination. -/
theorem add_result_by_path_spec_witness :
    ((record_broken "a/b.mean" (some "Not present in target results (-100)")
        true).status = ERROR ∧
     (record_broken "a/b.mean" (some "Not present in target results (-100)")
        true).score = -100) ∧
    record_broken "a/b.mean" (some "Not present in target results (-100)")
        (([(("a/b.mean" : String), ((100 : ℚ), true))].lookup
          "a/b.mean").getD (0, false)).2
      ∈ add_result_by_path [] (fun _ _ => []) 10 4
          [("a/b.mean", 100, true)] [] :=
  ⟨(add_result_by_path_spec [] (fun _ _ => []) 10 4
      [("a/b.mean", 100, true)] []).1 "a/b.mean"
      (some "Not present in target results (-100)") true,
   (add_result_by_path_spec [] (fun _ _ => []) 10 4
      [("a/b.mean", 100, true)] []).2.2.1 "a/b.mean" (by decide) (by decide)⟩

end Runperf
